import Mathlib

/-!
Shallow embedding of the Soniox LangChain document loader
(`src/soniox.ts`, `src/types/types.ts`, `src/errors.ts`) in Lean 4.

The program orchestrates a remote transcription API: upload audio (or
reference it by URL), create a transcription job, poll until a terminal
status or timeout, fetch the transcript, and always attempt cleanup of
the server-side resources it created.

Modelling conventions:
* Remote HTTP calls are abstracted by an environment (`TryEnv` / `Env`)
  that fixes, for each call the program may make, the outcome of the
  underlying `fetch` (network error, or a response with `ok` flag,
  numeric status, status text and a parse result for the body).
* `Date.now()` is abstracted by `startTime` (read once after job
  submission) and `checkTime i` (the clock value at the i-th iteration
  of the polling loop).  The sleep between polls only advances real
  time, which this clock already abstracts, so the polling interval
  does not appear in the loop model.
* JS exceptions become `Except SonioxError`; the `finally` block of
  `transcribe` becomes an explicit `cleanup` stage whose caught errors
  are collected into a `warnings` list (the `console.warn` channel).
* The polling `while (true)` loop is given explicit fuel; `none` means
  the fuel ran out before the loop terminated.
* Every HTTP request the program issues is recorded in a trace of
  `ApiCall`s, so "a deletion was attempted" is trace membership.
* JS byte buffers are `List Nat`; truthiness of an optional string is
  `isTruthyStr` (both `undefined` and `""` are falsy); truthiness of an
  optional number treats `0` as falsy.
-/

/-- Audio input: `Uint8Array` (bytes) or a URL string, discriminated at
runtime by `typeof audio === "string"`. -/
inductive SonioxAudio where
  | bytes (data : List Nat)
  | url (u : String)
deriving DecidableEq, Repr

/-- `SonioxAudioFormat` is a union of string literals in the source;
the program only splices it into a file name, so a plain string. -/
abbrev SonioxAudioFormat := String

/-- `SonioxTranslation` from `types.ts`. -/
inductive SonioxTranslation where
  | one_way (target_language : String)
  | two_way (language_a language_b : String)
deriving DecidableEq, Repr

/-- The object form of `SonioxContext` from `types.ts`. -/
structure SonioxContextObj where
  general : Option (List (String × String))
  text : Option String
  terms : Option (List String)
  translation_terms : Option (List (String × String))
deriving DecidableEq, Repr

/-- `SonioxContext` from `types.ts`: a string or a structured object. -/
inductive SonioxContext where
  | str (s : String)
  | obj (o : SonioxContextObj)
deriving DecidableEq, Repr

/-- `SonioxLoaderOptions = Partial<SonioxTranscriptionOptions>`: every
field optional. -/
structure SonioxLoaderOptions where
  model : Option String := none
  language_hints : Option (List String) := none
  language_hints_strict : Option Bool := none
  enable_language_identification : Option Bool := none
  enable_speaker_diarization : Option Bool := none
  context : Option SonioxContext := none
  client_reference_id : Option String := none
  webhook_url : Option String := none
  webhook_auth_header_name : Option String := none
  webhook_auth_header_value : Option String := none
  translation : Option SonioxTranslation := none
deriving DecidableEq, Repr

/-- `SonioxCreateTranscriptionRequest`: the transcription options plus
the mutually-exclusive `audio_url` / `file_id` fields. -/
structure SonioxCreateTranscriptionRequest where
  model : String
  language_hints : Option (List String) := none
  language_hints_strict : Option Bool := none
  enable_language_identification : Option Bool := none
  enable_speaker_diarization : Option Bool := none
  context : Option SonioxContext := none
  client_reference_id : Option String := none
  webhook_url : Option String := none
  webhook_auth_header_name : Option String := none
  webhook_auth_header_value : Option String := none
  translation : Option SonioxTranslation := none
  audio_url : Option String := none
  file_id : Option String := none
deriving DecidableEq, Repr

/-- `SonioxFileUploadResponse` from `types.ts`. -/
structure SonioxFileUploadResponse where
  id : String
deriving DecidableEq, Repr

/-- `SonioxCreateTranscriptionResponse` from `types.ts`. -/
structure SonioxCreateTranscriptionResponse where
  id : String
deriving DecidableEq, Repr

/-- `SonioxTranscriptionStatusResponse` from `types.ts`.  Only `status`
and `error_message` are read by `transcribe`; the remaining fields are
carried verbatim. -/
structure SonioxTranscriptionStatusResponse where
  id : String
  status : String
  created_at : Option String := none
  model : Option String := none
  audio_url : Option String := none
  file_id : Option String := none
  filename : Option String := none
  language_hints : Option (List String) := none
  context : Option SonioxContext := none
  audio_duration_ms : Option Int := none
  error_message : Option String := none
  webhook_url : Option String := none
  webhook_auth_header_name : Option String := none
  webhook_auth_header_value : Option String := none
  webhook_status_code : Option Int := none
  client_reference_id : Option String := none
deriving DecidableEq, Repr

/-- `speaker` of a token: `number | string | null`. -/
inductive SonioxSpeakerTag where
  | num (n : Int)
  | str (s : String)
deriving DecidableEq, Repr

/-- `SonioxTranscriptToken` from `types.ts` (`confidence` is a carried
numeric value the program never computes with; modelled as `Rat`). -/
structure SonioxTranscriptToken where
  text : String
  start_ms : Option Int := none
  end_ms : Option Int := none
  confidence : Option Rat := none
  speaker : Option SonioxSpeakerTag := none
  language : Option String := none
  translation_status : Option String := none
deriving DecidableEq, Repr

/-- `SonioxTranscriptResponse` from `types.ts`: `text` and `tokens` are
optional/nullable. -/
structure SonioxTranscriptResponse where
  id : String
  text : Option String := none
  tokens : Option (List SonioxTranscriptToken) := none
deriving DecidableEq, Repr

/-- `SonioxLoaderParams` from `types.ts`.  The optional `fetch` field
(caller-substitutable transport) is abstracted by the environment that
fixes each call's outcome, so it has no counterpart here. -/
structure SonioxLoaderParams where
  audio : SonioxAudio
  audioFormat : Option SonioxAudioFormat := none
  apiKey : Option String := none
  apiBaseUrl : Option String := none
  pollingIntervalMs : Option Nat := none
  pollingTimeoutMs : Option Nat := none
deriving DecidableEq, Repr

/-- The error hierarchy of `errors.ts`: `SonioxValidationError`,
`SonioxTimeoutError`, `SonioxAPIError` (the latter carrying an optional
HTTP status and an optional cause, modelled by the cause's message). -/
inductive SonioxError where
  | validationError (message : String)
  | timeoutError (message : String)
  | apiError (message : String) (statusCode : Option Nat) (cause : Option String)
deriving DecidableEq, Repr

/-- The message carried by a `SonioxError`. -/
def SonioxError.message : SonioxError → String
  | .validationError m => m
  | .timeoutError m => m
  | .apiError m _ _ => m

/-- Outcome of one underlying `fetch`: the promise rejected (network
error), or a `Response` with its `ok` flag, numeric status, status text
and the result of parsing its body as JSON into `α`. -/
inductive FetchOutcome (α : Type) where
  | netError (msg : String)
  | response (ok : Bool) (status : Nat) (statusText : String) (body : Except String α)

/-- One HTTP request issued by the loader, as observed on the wire. -/
inductive ApiCall where
  | uploadFile
  | deleteFile (fileId : String)
  | createTranscription (body : SonioxCreateTranscriptionRequest)
  | getTranscription (transcriptionId : String)
  | deleteTranscription (transcriptionId : String)
  | getTranscript (transcriptionId : String)
deriving DecidableEq, Repr

/-- Environment for the try-block of `transcribe`: outcome of each
remote call (`statusResult i` is the i-th poll), plus the abstract
clock (`startTime` = `Date.now()` at job submission, `checkTime i` =
`Date.now()` at the i-th loop check). -/
structure TryEnv where
  uploadResult : FetchOutcome SonioxFileUploadResponse
  createResult : SonioxCreateTranscriptionRequest → FetchOutcome SonioxCreateTranscriptionResponse
  statusResult : Nat → FetchOutcome SonioxTranscriptionStatusResponse
  transcriptResult : FetchOutcome SonioxTranscriptResponse
  startTime : Nat
  checkTime : Nat → Nat

/-- Full environment: the try-block environment plus the outcomes of
the two cleanup deletions. -/
structure Env where
  api : TryEnv
  deleteFileResult : FetchOutcome Unit
  deleteTranscriptionResult : FetchOutcome Unit

/-- Constants of `SonioxBaseLoader`. -/
def API_BASE_URL : String := "https://api.soniox.com/v1"

/-- Default polling interval (`POLLING_INTERVAL_MS`). -/
def POLLING_INTERVAL_MS : Nat := 1000

/-- Default polling timeout (`POLLING_TIMEOUT_MS = 3 * 60 * 1000`). -/
def POLLING_TIMEOUT_MS : Nat := 3 * 60 * 1000

/-- Default transcription model (`DEFAULT_MODEL`). -/
def DEFAULT_MODEL : String := "stt-async-v3"

/-- JS truthiness of an optional string: `undefined` and `""` are
falsy. -/
def isTruthyStr : Option String → Bool
  | some s => s ≠ ""
  | none => false

/-- The `if (!res.ok) throw / parseJSON` pattern shared by `uploadFile`,
`createTranscription`, `getTranscription`, `getTranscriptionTranscript`:
network error → `APIError(netMsg)`, non-ok → `APIError(failMsg, status,
statusText)`, parse failure → `APIError("Failed to parse API response",
status, cause)`. -/
def handleResponse {α : Type} (netMsg failMsg : String) :
    FetchOutcome α → Except SonioxError α
  | .netError m => .error (.apiError netMsg none (some m))
  | .response ok status statusText body =>
    if ok then
      match body with
      | .ok v => .ok v
      | .error m => .error (.apiError "Failed to parse API response" (some status) (some m))
    else
      .error (.apiError failMsg (some status) (some statusText))

/-- The same pattern for the two DELETE helpers, which never parse the
body. -/
def handleDelete (netMsg failMsg : String) :
    FetchOutcome Unit → Except SonioxError Unit
  | .netError m => .error (.apiError netMsg none (some m))
  | .response ok status statusText _ =>
    if ok then .ok () else .error (.apiError failMsg (some status) (some statusText))

/-- `uploadFile`: empty buffers are rejected before any request; the
request is recorded only when it was actually issued. -/
def uploadFile (bs : List Nat) (env : TryEnv) :
    Except SonioxError SonioxFileUploadResponse × List ApiCall :=
  if bs.length = 0 then
    (.error (.validationError "Audio buffer is empty"), [])
  else
    (handleResponse "File upload failed: network error" "File upload failed"
      env.uploadResult, [.uploadFile])

/-- `createTranscription`. -/
def createTranscription (env : TryEnv) (body : SonioxCreateTranscriptionRequest) :
    Except SonioxError SonioxCreateTranscriptionResponse × List ApiCall :=
  (handleResponse "Transcription creation failed: network error"
    "Transcription creation failed" (env.createResult body),
   [.createTranscription body])

/-- `getTranscription` at the i-th poll. -/
def getTranscription (env : TryEnv) (i : Nat) (transcriptionId : String) :
    Except SonioxError SonioxTranscriptionStatusResponse × List ApiCall :=
  (handleResponse "Transcription query failed: network error"
    "Transcription query failed" (env.statusResult i),
   [.getTranscription transcriptionId])

/-- `getTranscriptionTranscript`. -/
def getTranscriptionTranscript (env : TryEnv) (transcriptionId : String) :
    Except SonioxError SonioxTranscriptResponse × List ApiCall :=
  (handleResponse "Transcription transcript query failed: network error"
    "Transcription transcript query failed" env.transcriptResult,
   [.getTranscript transcriptionId])

/-- `deleteFile`. -/
def deleteFile (env : Env) (fileId : String) :
    Except SonioxError Unit × List ApiCall :=
  (handleDelete "File deletion failed: network error" "File deletion failed"
    env.deleteFileResult, [.deleteFile fileId])

/-- `deleteTranscription`. -/
def deleteTranscription (env : Env) (transcriptionId : String) :
    Except SonioxError Unit × List ApiCall :=
  (handleDelete "Transcription deletion failed: network error"
    "Transcription deletion failed" env.deleteTranscriptionResult,
   [.deleteTranscription transcriptionId])

/-- The job-creation request body built at lines 394-405:
`{ model: options?.model || DEFAULT_MODEL, ...(options || {}) }`
followed by the mode-dependent `file_id` / `audio_url` assignment.
The spread comes after the `model:` entry, so a caller-supplied model
key overrides the `||`-computed one (JS `||` treats `""` as falsy). -/
def mkBody (opts : Option SonioxLoaderOptions) (audio : SonioxAudio)
    (fileId : Option String) : SonioxCreateTranscriptionRequest :=
  let baseModel : String :=
    match opts with
    | some o =>
      match o.model with
      | some m => if m = "" then DEFAULT_MODEL else m
      | none => DEFAULT_MODEL
    | none => DEFAULT_MODEL
  let model : String :=
    match opts with
    | some o => o.model.getD baseModel
    | none => baseModel
  { model := model
    language_hints := opts.bind (·.language_hints)
    language_hints_strict := opts.bind (·.language_hints_strict)
    enable_language_identification := opts.bind (·.enable_language_identification)
    enable_speaker_diarization := opts.bind (·.enable_speaker_diarization)
    context := opts.bind (·.context)
    client_reference_id := opts.bind (·.client_reference_id)
    webhook_url := opts.bind (·.webhook_url)
    webhook_auth_header_name := opts.bind (·.webhook_auth_header_name)
    webhook_auth_header_value := opts.bind (·.webhook_auth_header_value)
    translation := opts.bind (·.translation)
    audio_url := match audio with
      | .url u => some u
      | .bytes _ => none
    file_id := match audio with
      | .bytes _ => fileId
      | .url _ => none }

/-- The polling `while (true)` loop (lines 416-436), with fuel.  At
each iteration: timeout check first, then a status query; "completed"
exits the loop, "error" throws, anything else recurses (the sleep only
advances the abstract clock). -/
def pollLoop (env : TryEnv) (timeoutMs : Nat) (transcriptionId : String) :
    Nat → Nat → Option (Except SonioxError Unit × List ApiCall)
  | 0, _ => none
  | fuel + 1, i =>
    if env.checkTime i - env.startTime > timeoutMs then
      some (.error (.timeoutError "Transcription job polling timed out"), [])
    else
      match getTranscription env i transcriptionId with
      | (.error e, c) => some (.error e, c)
      | (.ok st, c) =>
        if st.status = "completed" then
          some (.ok (), c)
        else if st.status = "error" then
          some (.error (.apiError
            ("Transcription failed: " ++ st.error_message.getD "Unknown error")
            none none), c)
        else
          match pollLoop env timeoutMs transcriptionId fuel (i + 1) with
          | none => none
          | some (r, rest) => some (r, c ++ rest)

/-- Result of the try-block of `transcribe`: the primary outcome plus
the resource ids acquired so far (consulted by the finally-block) and
the trace of requests issued. -/
structure TryOut where
  outcome : Except SonioxError SonioxTranscriptResponse
  fileId : Option String
  transcriptionId : Option String
  calls : List ApiCall
deriving Repr

/-- The try-block of `transcribe` from job creation on (lines 394-438):
build the body, submit it, poll, fetch the transcript. -/
def runFromCreate (p : SonioxLoaderParams) (opts : Option SonioxLoaderOptions)
    (env : TryEnv) (fuel : Nat) (fileId : Option String) (prior : List ApiCall) :
    Option TryOut :=
  let body := mkBody opts p.audio fileId
  match createTranscription env body with
  | (.error e, c) => some ⟨.error e, fileId, none, prior ++ c⟩
  | (.ok ctr, c) =>
    let transcriptionId := ctr.id
    let timeoutMs := p.pollingTimeoutMs.getD POLLING_TIMEOUT_MS
    match pollLoop env timeoutMs transcriptionId fuel 0 with
    | none => none
    | some (.error e, c2) =>
      some ⟨.error e, fileId, some transcriptionId, prior ++ c ++ c2⟩
    | some (.ok _, c2) =>
      match getTranscriptionTranscript env transcriptionId with
      | (.error e, c3) =>
        some ⟨.error e, fileId, some transcriptionId, prior ++ c ++ c2 ++ c3⟩
      | (.ok t, c3) =>
        some ⟨.ok t, fileId, some transcriptionId, prior ++ c ++ c2 ++ c3⟩

/-- The full try-block of `transcribe` (lines 382-438): mode is decided
by the runtime type of `audio` (`typeof audio === "string"`); file mode
uploads first and remembers the file id. -/
def runTry (p : SonioxLoaderParams) (opts : Option SonioxLoaderOptions)
    (env : TryEnv) (fuel : Nat) : Option TryOut :=
  match p.audio with
  | .url _ => runFromCreate p opts env fuel none []
  | .bytes bs =>
    match uploadFile bs env with
    | (.error e, c) => some ⟨.error e, none, none, c⟩
    | (.ok fr, c) => runFromCreate p opts env fuel (some fr.id) c

/-- The finally-block of `transcribe` (lines 439-465): attempt each
deletion for a resource that was acquired, catching its error into the
collected warnings; returns the requests issued and the warnings.
The guards are the JS truthiness tests `if (fileId)` (line 442) and
`if (transcriptionId)` (line 452): an absent *or empty-string* id is
falsy and skips the deletion. -/
def cleanup (env : Env) (fileId transcriptionId : Option String) :
    List ApiCall × List SonioxError :=
  let fileStep : List ApiCall × List SonioxError :=
    match fileId with
    | none => ([], [])
    | some fid =>
      if fid ≠ "" then
        match deleteFile env fid with
        | (.ok _, c) => (c, [])
        | (.error e, c) => (c, [e])
      else ([], [])
  let jobStep : List ApiCall × List SonioxError :=
    match transcriptionId with
    | none => ([], [])
    | some tid =>
      if tid ≠ "" then
        match deleteTranscription env tid with
        | (.ok _, c) => (c, [])
        | (.error e, c) => (c, [e])
      else ([], [])
  (fileStep.1 ++ jobStep.1, fileStep.2 ++ jobStep.2)

/-- Result of one `transcribe` invocation: the primary outcome, the
full request trace, and the cleanup warnings (`console.warn`). -/
structure TranscribeResult where
  outcome : Except SonioxError SonioxTranscriptResponse
  calls : List ApiCall
  warnings : List SonioxError
deriving Repr

/-- `transcribe` (lines 378-466): try-block, then the finally-block,
whose caught deletion errors never change the primary outcome. -/
def transcribe (p : SonioxLoaderParams) (opts : Option SonioxLoaderOptions)
    (env : Env) (fuel : Nat) : Option TranscribeResult :=
  match runTry p opts env.api fuel with
  | none => none
  | some t =>
    let cl := cleanup env t.fileId t.transcriptionId
    some ⟨t.outcome, t.calls ++ cl.1, cl.2⟩

/-- A LangChain `Document` as produced by `load`: `pageContent` is the
transcript's `text` field passed through unchanged (the `as string`
cast does nothing at runtime), `metadata` the full transcript. -/
structure Document where
  pageContent : Option String
  metadata : SonioxTranscriptResponse
deriving DecidableEq, Repr

/-- `load` (lines 473-482): transcribe and wrap the transcript into a
one-element document array. -/
def load (p : SonioxLoaderParams) (opts : Option SonioxLoaderOptions)
    (env : Env) (fuel : Nat) :
    Option (Except SonioxError (List Document) × List ApiCall × List SonioxError) :=
  match transcribe p opts env fuel with
  | none => none
  | some r => some (r.outcome.map (fun t => [⟨t.text, t⟩]), r.calls, r.warnings)

/-- The stored state after a successful construction: the params object
the instance keeps (aliasing, and thus exposing, any defaults written
into the caller's object) and the options. -/
structure ResolvedConfig where
  params : SonioxLoaderParams
  options : Option SonioxLoaderOptions
deriving Repr

/-- The `SonioxBaseLoader` constructor (lines 29-56).  `envApiKey` is
the value of the `SONIOX_API_KEY` environment variable.  Note the JS
truthiness checks: a missing or empty `apiKey`/`apiBaseUrl` is filled
in by mutating the caller-supplied object, and the polling-interval
guard `pollingIntervalMs && pollingIntervalMs < 1000` skips the check
when the value is `0` (falsy). -/
def construct (envApiKey : Option String) (sonioxParams : Option SonioxLoaderParams)
    (sonioxOptions : Option SonioxLoaderOptions) :
    Except SonioxError ResolvedConfig :=
  match sonioxParams with
  | none => .error (.validationError "No Soniox params provided")
  | some p0 =>
    let p1 := if isTruthyStr p0.apiKey then p0 else { p0 with apiKey := envApiKey }
    if isTruthyStr p1.apiKey then
      let p2 := if isTruthyStr p1.apiBaseUrl then p1
                else { p1 with apiBaseUrl := some API_BASE_URL }
      match p2.pollingIntervalMs with
      | some v =>
        if v ≠ 0 ∧ v < 1000 then
          .error (.validationError "Polling interval should be longer than 1000 ms")
        else
          .ok ⟨p2, sonioxOptions⟩
      | none => .ok ⟨p2, sonioxOptions⟩
    else
      .error (.validationError "No Soniox API key provided")

/-- `s` contains `pat` as a substring. -/
def strContains (s pat : String) : Prop := ∃ pre post, s = pre ++ pat ++ post

/-! ### Concrete fixtures used by witnesses -/

/-- A small non-empty audio buffer. -/
def bytesFixture : List Nat := [1, 2, 3]

/-- Params fixture in file (byte-buffer) mode. -/
def paramsBytes : SonioxLoaderParams :=
  { audio := .bytes bytesFixture, apiKey := some "k" }

/-- Params fixture in URL mode. -/
def paramsUrl : SonioxLoaderParams :=
  { audio := .url "https://example.com/a.mp3", apiKey := some "k" }

/-- A happy transcript response. -/
def transcriptFixture : SonioxTranscriptResponse :=
  { id := "job-1", text := some "hello", tokens := none }

/-- A transcript response with a null `text` field. -/
def transcriptNoText : SonioxTranscriptResponse :=
  { id := "job-1", text := none, tokens := none }

/-- A completed status response. -/
def statusCompleted : SonioxTranscriptionStatusResponse :=
  { id := "job-1", status := "completed" }

/-- A queued (non-terminal) status response. -/
def statusQueued : SonioxTranscriptionStatusResponse :=
  { id := "job-1", status := "queued" }

/-- An error status response carrying a server message. -/
def statusErrored : SonioxTranscriptionStatusResponse :=
  { id := "job-1", status := "error", error_message := some "boom" }

/-- Try-environment for the happy path: every call succeeds, the first
poll reports "completed", and the clock stays inside the budget. -/
def tryEnvHappy : TryEnv :=
  { uploadResult := .response true 200 "OK" (.ok ⟨"file-1"⟩)
    createResult := fun _ => .response true 200 "OK" (.ok ⟨"job-1"⟩)
    statusResult := fun _ => .response true 200 "OK" (.ok statusCompleted)
    transcriptResult := .response true 200 "OK" (.ok transcriptFixture)
    startTime := 0
    checkTime := fun _ => 0 }

/-- Full happy-path environment (cleanup deletions succeed). -/
def envHappy : Env :=
  { api := tryEnvHappy
    deleteFileResult := .response true 200 "OK" (.ok ())
    deleteTranscriptionResult := .response true 200 "OK" (.ok ()) }

/-- Environment where job creation returns HTTP 500. -/
def envCreateFail : Env :=
  { api := { tryEnvHappy with
      createResult := fun _ => .response false 500 "Internal Server Error" (.ok ⟨"x"⟩) }
    deleteFileResult := .response true 200 "OK" (.ok ())
    deleteTranscriptionResult := .response true 200 "OK" (.ok ()) }

/-- Environment whose polls stay "queued" forever while the clock has
already left the budget. -/
def envTimeout : Env :=
  { api := { tryEnvHappy with
      statusResult := fun _ => .response true 200 "OK" (.ok statusQueued)
      checkTime := fun _ => 10 ^ 9 }
    deleteFileResult := .response true 200 "OK" (.ok ())
    deleteTranscriptionResult := .response true 200 "OK" (.ok ()) }

/-- Environment whose first poll reports status "error". -/
def envPollError : Env :=
  { api := { tryEnvHappy with
      statusResult := fun _ => .response true 200 "OK" (.ok statusErrored) }
    deleteFileResult := .response true 200 "OK" (.ok ())
    deleteTranscriptionResult := .response true 200 "OK" (.ok ()) }

/-- Happy-path environment whose transcript has a null `text`. -/
def envNoText : Env :=
  { envHappy with api := { tryEnvHappy with
      transcriptResult := .response true 200 "OK" (.ok transcriptNoText) } }

/-- Environment whose upload parses to the empty-string file id and
whose job creation returns HTTP 500. -/
def envEmptyIdCreateFail : Env :=
  { api := { tryEnvHappy with
      uploadResult := .response true 200 "OK" (.ok ⟨""⟩)
      createResult := fun _ =>
        .response false 500 "Internal Server Error" (.ok ⟨"x"⟩) }
    deleteFileResult := .response true 200 "OK" (.ok ())
    deleteTranscriptionResult := .response true 200 "OK" (.ok ()) }

/-- Environment whose job creation parses to the empty-string job id,
whose polls stay "queued", and whose clock has left the budget. -/
def envEmptyJobTimeout : Env :=
  { api := { tryEnvHappy with
      createResult := fun _ => .response true 200 "OK" (.ok ⟨""⟩)
      statusResult := fun _ => .response true 200 "OK" (.ok statusQueued)
      checkTime := fun _ => 10 ^ 9 }
    deleteFileResult := .response true 200 "OK" (.ok ())
    deleteTranscriptionResult := .response true 200 "OK" (.ok ()) }

/-! ### Theorems -/

/-- **C7.** For every set of caller-supplied transcription options, the
job-creation request body built by `transcribe` merges those options
with the default model: its `model` field is the caller-supplied model
when one is supplied and `"stt-async-v3"` otherwise, and every other
option field is carried over unchanged. -/
theorem C7_body_merges_options_with_default_model
    (opts : Option SonioxLoaderOptions) (audio : SonioxAudio) (fid : Option String) :
    (mkBody opts audio fid).model = (opts.bind (·.model)).getD DEFAULT_MODEL ∧
    (mkBody opts audio fid).language_hints = opts.bind (·.language_hints) ∧
    (mkBody opts audio fid).language_hints_strict = opts.bind (·.language_hints_strict) ∧
    (mkBody opts audio fid).enable_language_identification
      = opts.bind (·.enable_language_identification) ∧
    (mkBody opts audio fid).enable_speaker_diarization
      = opts.bind (·.enable_speaker_diarization) ∧
    (mkBody opts audio fid).context = opts.bind (·.context) ∧
    (mkBody opts audio fid).client_reference_id = opts.bind (·.client_reference_id) ∧
    (mkBody opts audio fid).webhook_url = opts.bind (·.webhook_url) ∧
    (mkBody opts audio fid).webhook_auth_header_name
      = opts.bind (·.webhook_auth_header_name) ∧
    (mkBody opts audio fid).webhook_auth_header_value
      = opts.bind (·.webhook_auth_header_value) ∧
    (mkBody opts audio fid).translation = opts.bind (·.translation) := by
  refine ⟨?_, rfl, rfl, rfl, rfl, rfl, rfl, rfl, rfl, rfl, rfl⟩
  match opts with
  | none => rfl
  | some o =>
    match h : o.model with
    | none => simp [mkBody, h]
    | some m =>
      by_cases hm : m = "" <;> simp [mkBody, h, hm]

/-- **C5 counterexample.** The claim "a polling interval below 1000 ms
always raises the polling-interval ValidationError at construction"
fails twice on the code: (a) an interval of `0` is below 1000 ms but the
guard `pollingIntervalMs && pollingIntervalMs < 1000` treats `0` as
falsy and skips the check, so construction succeeds; (b) when the API
key does not resolve, the key error is raised first, so a 500 ms
interval yields a different ValidationError message. -/
theorem C5_counterexample :
    (∃ p : SonioxLoaderParams, p.pollingIntervalMs = some 0 ∧ (0 : Nat) < 1000 ∧
      construct none (some p) none =
        .ok ⟨{ p with apiBaseUrl := some API_BASE_URL }, none⟩) ∧
    (∃ p : SonioxLoaderParams, p.pollingIntervalMs = some 500 ∧ (500 : Nat) < 1000 ∧
      construct none (some p) none =
        .error (.validationError "No Soniox API key provided")) := by
  refine ⟨⟨{ paramsUrl with pollingIntervalMs := some 0 }, rfl, by norm_num, ?_⟩,
          ⟨{ paramsUrl with apiKey := none, pollingIntervalMs := some 500 },
            rfl, by norm_num, ?_⟩⟩ <;> rfl

/-- **C5 amended.** If a polling interval is given with a *nonzero*
value below 1000 ms, and the API key resolves (a non-empty key is
supplied or the environment provides one), then construction fails with
`ValidationError("Polling interval should be longer than 1000 ms")`
before any network call (`construct` issues none). An interval of `0`
is treated as absent by the JS truthiness guard. -/
theorem C5_amended_interval_validation
    (ek : Option String) (p : SonioxLoaderParams) (o : Option SonioxLoaderOptions)
    (v : Nat) (hv : p.pollingIntervalMs = some v) (hv0 : v ≠ 0) (hlt : v < 1000)
    (hkey : isTruthyStr p.apiKey = true ∨ isTruthyStr ek = true) :
    construct ek (some p) o =
      .error (.validationError "Polling interval should be longer than 1000 ms") := by
  unfold construct
  by_cases hk : isTruthyStr p.apiKey = true
  · by_cases hb : isTruthyStr p.apiBaseUrl = true <;>
      simp [hk, hb, hv, hv0, hlt]
  · have hek : isTruthyStr ek = true := by
      rcases hkey with h | h
      · exact absurd h hk
      · exact h
    by_cases hb : isTruthyStr p.apiBaseUrl = true <;>
      simp [hk, hek, hb, hv, hv0, hlt]

/-- **C5 witness.** The amended theorem at a concrete input: key
`"k"`, interval 500. -/
theorem C5_amended_interval_validation_witness :
    construct none (some { paramsUrl with pollingIntervalMs := some 500 }) none =
      .error (.validationError "Polling interval should be longer than 1000 ms") :=
  C5_amended_interval_validation none { paramsUrl with pollingIntervalMs := some 500 }
    none 500 rfl (by norm_num) (by norm_num) (Or.inl (by decide))

/-- **C9 counterexample.** The claim "no field of the caller-supplied
configuration object is mutated by construction or by transcribe" fails
on construction: with `apiBaseUrl` absent, the constructor assigns the
default base URL into the caller-supplied object (which `this.params`
aliases), so the stored configuration differs from what the caller
passed. -/
theorem C9_counterexample :
    construct none (some paramsUrl) none =
      .ok ⟨{ paramsUrl with apiBaseUrl := some API_BASE_URL }, none⟩ ∧
    ({ paramsUrl with apiBaseUrl := some API_BASE_URL } : SonioxLoaderParams)
      ≠ paramsUrl := by
  refine ⟨rfl, ?_⟩
  intro h
  have : (some API_BASE_URL : Option String) = none := congrArg SonioxLoaderParams.apiBaseUrl h
  simp at this

/-- **C9 amended.** Construction mutates at most the `apiKey` and
`apiBaseUrl` fields of the caller-supplied configuration — filling each
with its fallback exactly when the supplied value is falsy (absent or
empty): a falsy `apiKey` is overwritten with the environment value and
a falsy `apiBaseUrl` with the default base URL — and leaves every other
field unchanged; `transcribe` (a pure function of the stored
configuration in this model, mirroring that the source never assigns to
`this.params`) mutates nothing. -/
theorem C9_amended_construction_fills_only_fallbacks
    (ek : Option String) (p : SonioxLoaderParams) (o : Option SonioxLoaderOptions)
    (r : ResolvedConfig) (h : construct ek (some p) o = .ok r) :
    r.params.audio = p.audio ∧
    r.params.audioFormat = p.audioFormat ∧
    r.params.pollingIntervalMs = p.pollingIntervalMs ∧
    r.params.pollingTimeoutMs = p.pollingTimeoutMs ∧
    (isTruthyStr p.apiKey = true → r.params.apiKey = p.apiKey) ∧
    (isTruthyStr p.apiKey = false → r.params.apiKey = ek) ∧
    (isTruthyStr p.apiBaseUrl = true → r.params.apiBaseUrl = p.apiBaseUrl) ∧
    (isTruthyStr p.apiBaseUrl = false → r.params.apiBaseUrl = some API_BASE_URL) ∧
    r.options = o := by
  unfold construct at h
  by_cases hk : isTruthyStr p.apiKey = true
  · by_cases hb : isTruthyStr p.apiBaseUrl = true <;>
    · match hp : p.pollingIntervalMs with
      | some v =>
        by_cases hcond : v ≠ 0 ∧ v < 1000
        · simp [hk, hb, hp, hcond] at h
        · simp [hk, hb, hp, hcond] at h
          subst h
          simp [hk, hb, hp]
      | none =>
        simp [hk, hb, hp] at h
        subst h
        simp [hk, hb, hp]
  · by_cases hek : isTruthyStr ek = true
    · by_cases hb : isTruthyStr p.apiBaseUrl = true <;>
      · match hp : p.pollingIntervalMs with
        | some v =>
          by_cases hcond : v ≠ 0 ∧ v < 1000
          · simp [hk, hek, hb, hp, hcond] at h
          · simp [hk, hek, hb, hp, hcond] at h
            subst h
            simp [hk, hek, hb, hp]
        | none =>
          simp [hk, hek, hb, hp] at h
          subst h
          simp [hk, hek, hb, hp]
    · simp [hk, hek] at h

/-- **C9 amended witness.** The amended theorem at a concrete input
(key supplied, base URL absent). -/
theorem C9_amended_witness :
    (ResolvedConfig.mk { paramsUrl with apiBaseUrl := some API_BASE_URL } none).params.audio
        = paramsUrl.audio ∧
    (ResolvedConfig.mk { paramsUrl with apiBaseUrl := some API_BASE_URL } none).params.audioFormat
        = paramsUrl.audioFormat ∧
    (ResolvedConfig.mk { paramsUrl with apiBaseUrl := some API_BASE_URL } none).params.pollingIntervalMs
        = paramsUrl.pollingIntervalMs ∧
    (ResolvedConfig.mk { paramsUrl with apiBaseUrl := some API_BASE_URL } none).params.pollingTimeoutMs
        = paramsUrl.pollingTimeoutMs ∧
    (isTruthyStr paramsUrl.apiKey = true →
      (ResolvedConfig.mk { paramsUrl with apiBaseUrl := some API_BASE_URL } none).params.apiKey
        = paramsUrl.apiKey) ∧
    (isTruthyStr paramsUrl.apiKey = false →
      (ResolvedConfig.mk { paramsUrl with apiBaseUrl := some API_BASE_URL } none).params.apiKey
        = none) ∧
    (isTruthyStr paramsUrl.apiBaseUrl = true →
      (ResolvedConfig.mk { paramsUrl with apiBaseUrl := some API_BASE_URL } none).params.apiBaseUrl
        = paramsUrl.apiBaseUrl) ∧
    (isTruthyStr paramsUrl.apiBaseUrl = false →
      (ResolvedConfig.mk { paramsUrl with apiBaseUrl := some API_BASE_URL } none).params.apiBaseUrl
        = some API_BASE_URL) ∧
    (ResolvedConfig.mk { paramsUrl with apiBaseUrl := some API_BASE_URL } none).options
        = (none : Option SonioxLoaderOptions) :=
  C9_amended_construction_fills_only_fallbacks none paramsUrl none
    ⟨{ paramsUrl with apiBaseUrl := some API_BASE_URL }, none⟩ rfl

/-- The requests issued by the finally-block: a DELETE for exactly the
resources that were acquired with a truthy (non-empty) id, in
file-then-job order, whatever the delete outcomes. -/
theorem cleanup_calls_eq (env : Env) (fid tid : Option String) :
    (cleanup env fid tid).1 =
      (match fid with
        | none => []
        | some f => if f ≠ "" then [ApiCall.deleteFile f] else []) ++
      (match tid with
        | none => []
        | some t => if t ≠ "" then [ApiCall.deleteTranscription t] else []) := by
  unfold cleanup
  rcases fid with _ | f <;> rcases tid with _ | t <;>
    simp only [deleteFile, deleteTranscription] <;>
    cases handleDelete "File deletion failed: network error" "File deletion failed"
      env.deleteFileResult <;>
    cases handleDelete "Transcription deletion failed: network error"
      "Transcription deletion failed" env.deleteTranscriptionResult <;>
    split_ifs <;> simp_all

/-- Everything the finally-block issues is a deletion. -/
theorem cleanup_calls_classify (env : Env) (fid tid : Option String) :
    ∀ x ∈ (cleanup env fid tid).1,
      (∃ f, x = ApiCall.deleteFile f) ∨ (∃ j, x = ApiCall.deleteTranscription j) := by
  intro x hx
  rw [cleanup_calls_eq] at hx
  rcases List.mem_append.mp hx with h | h
  · rcases fid with _ | f
    · simp at h
    · rcases Decidable.em (f = "") with hf | hf <;> simp [hf] at h
      exact Or.inl ⟨f, h⟩
  · rcases tid with _ | t
    · simp at h
    · rcases Decidable.em (t = "") with ht | ht <;> simp [ht] at h
      exact Or.inr ⟨t, h⟩

/-- Evaluating `transcribe` from an evaluated try-block. -/
theorem transcribe_eq (p : SonioxLoaderParams) (opts : Option SonioxLoaderOptions)
    (env : Env) (fuel : Nat) (t : TryOut)
    (h : runTry p opts env.api fuel = some t) :
    transcribe p opts env fuel =
      some ⟨t.outcome, t.calls ++ (cleanup env t.fileId t.transcriptionId).1,
            (cleanup env t.fileId t.transcriptionId).2⟩ := by
  unfold transcribe
  rw [h]

/-- Inversion for `transcribe`: a produced result comes from a
try-block result, with the cleanup requests appended. -/
theorem transcribe_some_elim (p : SonioxLoaderParams)
    (opts : Option SonioxLoaderOptions) (env : Env) (fuel : Nat)
    (res : TranscribeResult) (h : transcribe p opts env fuel = some res) :
    ∃ t, runTry p opts env.api fuel = some t ∧ res.outcome = t.outcome ∧
      res.calls = t.calls ++ (cleanup env t.fileId t.transcriptionId).1 := by
  unfold transcribe at h
  cases hr : runTry p opts env.api fuel with
  | none => rw [hr] at h; exact absurd h (by simp)
  | some t =>
    rw [hr] at h
    refine ⟨t, rfl, ?_, ?_⟩ <;> { cases h; rfl }

/-- **C2.** For every outcome of `transcribe`, changing the outcomes of
the cleanup deletions (file deletion and/or job deletion succeeding,
failing over the network, or returning any HTTP status) never changes
the primary resolved value or rejection reason: deletion errors are
caught into the warning channel and the try-block result is returned
untouched. -/
theorem C2_cleanup_failures_never_change_outcome
    (p : SonioxLoaderParams) (opts : Option SonioxLoaderOptions)
    (api : TryEnv) (fuel : Nat) (d1 d2 d1' d2' : FetchOutcome Unit) :
    (transcribe p opts ⟨api, d1, d2⟩ fuel).map (·.outcome) =
    (transcribe p opts ⟨api, d1', d2'⟩ fuel).map (·.outcome) := by
  unfold transcribe
  cases h : runTry p opts api fuel <;> simp [h]

/-- Every request issued inside the polling loop is a status query for
the submitted job. -/
theorem pollLoop_calls (env : TryEnv) (timeoutMs : Nat) (tid : String) :
    ∀ fuel i r c, pollLoop env timeoutMs tid fuel i = some (r, c) →
      ∀ x ∈ c, x = ApiCall.getTranscription tid := by
  intro fuel
  induction fuel with
  | zero => intro i r c h; simp [pollLoop] at h
  | succ n ih =>
    intro i r c h
    rw [pollLoop] at h
    by_cases ht : env.checkTime i - env.startTime > timeoutMs
    · rw [if_pos ht] at h
      cases h
      intro x hx
      simp at hx
    · rw [if_neg ht] at h
      cases hr : handleResponse "Transcription query failed: network error"
          "Transcription query failed" (env.statusResult i) with
      | error e =>
        simp only [getTranscription, hr] at h
        cases h
        intro x hx
        simp at hx
        simp [hx]
      | ok st =>
        simp only [getTranscription, hr] at h
        by_cases hc : st.status = "completed"
        · rw [if_pos hc] at h
          cases h
          intro x hx
          simp at hx
          simp [hx]
        · rw [if_neg hc] at h
          by_cases he : st.status = "error"
          · rw [if_pos he] at h
            cases h
            intro x hx
            simp at hx
            simp [hx]
          · rw [if_neg he] at h
            cases hp : pollLoop env timeoutMs tid n (i + 1) with
            | none => rw [hp] at h; exact absurd h (by simp)
            | some pr =>
              rw [hp] at h
              cases h
              intro x hx
              simp at hx
              rcases hx with hx | hx
              · simp [hx]
              · exact ih (i + 1) pr.1 pr.2 (by rw [hp]) x hx

/-- If every poll succeeds with a non-terminal status and the clock
leaves the budget within the available fuel, the loop ends by throwing
the timeout error. -/
theorem pollLoop_timeout (env : TryEnv) (timeoutMs : Nat) (tid : String)
    (hSt : ∀ i, ∃ c t st, env.statusResult i = .response true c t (.ok st) ∧
      st.status ≠ "completed" ∧ st.status ≠ "error") :
    ∀ fuel i, (∃ d, d < fuel ∧ env.checkTime (i + d) - env.startTime > timeoutMs) →
      ∃ c, pollLoop env timeoutMs tid fuel i =
        some (.error (.timeoutError "Transcription job polling timed out"), c) := by
  intro fuel
  induction fuel with
  | zero =>
    rintro i ⟨d, hd, _⟩
    omega
  | succ n ih =>
    rintro i ⟨d, hd, hgt⟩
    by_cases h0 : env.checkTime i - env.startTime > timeoutMs
    · exact ⟨[], by rw [pollLoop]; simp [h0]⟩
    · obtain ⟨c0, t0, st, hres, hnc, hne⟩ := hSt i
      have hd0 : d ≠ 0 := by
        rintro rfl
        rw [Nat.add_zero] at hgt
        exact h0 hgt
      obtain ⟨c', hc'⟩ := ih (i + 1) ⟨d - 1, by omega, by
        have hshift : i + 1 + (d - 1) = i + d := by omega
        rw [hshift]; exact hgt⟩
      refine ⟨ApiCall.getTranscription tid :: c', ?_⟩
      rw [pollLoop]
      simp [h0, getTranscription, handleResponse, hres, hnc, hne, hc']

/-- If the first `k` polls stay inside the budget with non-terminal
statuses and the k-th check is inside the budget with a "completed"
status, the loop exits normally. -/
theorem pollLoop_completed (env : TryEnv) (timeoutMs : Nat) (tid : String) :
    ∀ k fuel i, k < fuel →
      (∀ j, j < k → env.checkTime (i + j) - env.startTime ≤ timeoutMs ∧
        ∃ c t st, env.statusResult (i + j) = .response true c t (.ok st) ∧
          st.status ≠ "completed" ∧ st.status ≠ "error") →
      env.checkTime (i + k) - env.startTime ≤ timeoutMs →
      (∃ c t st, env.statusResult (i + k) = .response true c t (.ok st) ∧
        st.status = "completed") →
      ∃ c, pollLoop env timeoutMs tid fuel i = some (.ok (), c) := by
  intro k
  induction k with
  | zero =>
    intro fuel i hf hbef hk hst
    obtain ⟨c0, t0, st, hres, hcomp⟩ := hst
    rw [Nat.add_zero] at hres hk
    match fuel, hf with
    | n + 1, _ =>
      refine ⟨[ApiCall.getTranscription tid], ?_⟩
      rw [pollLoop]
      simp [Nat.not_lt.mpr hk, getTranscription, handleResponse, hres, hcomp]
  | succ m ih =>
    intro fuel i hf hbef hk hst
    match fuel, hf with
    | n + 1, hf =>
      obtain ⟨ht0, c0, t0, st, hres, hnc, hne⟩ := hbef 0 (Nat.succ_pos m)
      rw [Nat.add_zero] at hres ht0
      obtain ⟨c', hc'⟩ := ih n (i + 1) (by omega)
        (fun j hj => by
          have := hbef (j + 1) (by omega)
          rwa [show i + (j + 1) = i + 1 + j by omega] at this)
        (by rwa [show i + 1 + m = i + (m + 1) by omega])
        (by rwa [show i + 1 + m = i + (m + 1) by omega])
      refine ⟨ApiCall.getTranscription tid :: c', ?_⟩
      rw [pollLoop]
      simp [Nat.not_lt.mpr ht0, getTranscription, handleResponse, hres, hnc, hne, hc']

/-- If the first `k` polls stay inside the budget with non-terminal
statuses and the k-th check is inside the budget with status "error",
the loop throws the API error built from the server message. -/
theorem pollLoop_error (env : TryEnv) (timeoutMs : Nat) (tid : String) :
    ∀ k fuel i, k < fuel →
      (∀ j, j < k → env.checkTime (i + j) - env.startTime ≤ timeoutMs ∧
        ∃ c t st, env.statusResult (i + j) = .response true c t (.ok st) ∧
          st.status ≠ "completed" ∧ st.status ≠ "error") →
      env.checkTime (i + k) - env.startTime ≤ timeoutMs →
      ∀ em, (∃ c t st, env.statusResult (i + k) = .response true c t (.ok st) ∧
        st.status = "error" ∧ st.error_message = em) →
      ∃ c, pollLoop env timeoutMs tid fuel i =
        some (.error (.apiError
          ("Transcription failed: " ++ em.getD "Unknown error") none none), c) := by
  intro k
  induction k with
  | zero =>
    intro fuel i hf hbef hk em hst
    obtain ⟨c0, t0, st, hres, herr, hem⟩ := hst
    rw [Nat.add_zero] at hres hk
    match fuel, hf with
    | n + 1, _ =>
      refine ⟨[ApiCall.getTranscription tid], ?_⟩
      rw [pollLoop]
      have hne : st.status ≠ "completed" := by rw [herr]; decide
      simp [Nat.not_lt.mpr hk, getTranscription, handleResponse, hres, hne, herr, hem]
  | succ m ih =>
    intro fuel i hf hbef hk em hst
    match fuel, hf with
    | n + 1, hf =>
      obtain ⟨ht0, c0, t0, st, hres, hnc, hne⟩ := hbef 0 (Nat.succ_pos m)
      rw [Nat.add_zero] at hres ht0
      obtain ⟨c', hc'⟩ := ih n (i + 1) (by omega)
        (fun j hj => by
          have := hbef (j + 1) (by omega)
          rwa [show i + (j + 1) = i + 1 + j by omega] at this)
        (by rwa [show i + 1 + m = i + (m + 1) by omega])
        em
        (by rwa [show i + 1 + m = i + (m + 1) by omega])
      refine ⟨ApiCall.getTranscription tid :: c', ?_⟩
      rw [pollLoop]
      simp [Nat.not_lt.mpr ht0, getTranscription, handleResponse, hres, hnc, hne, hc']

/-- URL mode skips the upload stage. -/
theorem runTry_url (p : SonioxLoaderParams) (opts : Option SonioxLoaderOptions)
    (env : TryEnv) (fuel : Nat) (u : String) (hA : p.audio = .url u) :
    runTry p opts env fuel = runFromCreate p opts env fuel none [] := by
  unfold runTry
  rw [hA]

/-- File mode with a non-empty buffer and a successful upload proceeds
with the parsed file id. -/
theorem runTry_bytes_ok (p : SonioxLoaderParams) (opts : Option SonioxLoaderOptions)
    (env : TryEnv) (fuel : Nat) (bs : List Nat) (fr : SonioxFileUploadResponse)
    (cu : Nat) (tu : String)
    (hA : p.audio = .bytes bs) (hbs : bs ≠ [])
    (hUp : env.uploadResult = .response true cu tu (.ok fr)) :
    runTry p opts env fuel = runFromCreate p opts env fuel (some fr.id) [.uploadFile] := by
  unfold runTry uploadFile
  rw [hA]
  simp [handleResponse, hUp, List.length_eq_zero, hbs]

/-- A non-ok response from job creation stops the try-block with the
"Transcription creation failed" API error and no job id. -/
theorem runFromCreate_createFail (p : SonioxLoaderParams)
    (opts : Option SonioxLoaderOptions) (env : TryEnv) (fuel : Nat)
    (fileId : Option String) (prior : List ApiCall) (c : Nat) (t : String)
    (body' : Except String SonioxCreateTranscriptionResponse)
    (hCr : env.createResult (mkBody opts p.audio fileId) = .response false c t body') :
    runFromCreate p opts env fuel fileId prior =
      some ⟨.error (.apiError "Transcription creation failed" (some c) (some t)),
            fileId, none,
            prior ++ [.createTranscription (mkBody opts p.audio fileId)]⟩ := by
  unfold runFromCreate createTranscription
  simp [handleResponse, hCr]

/-- A successful job creation followed by a loop that throws makes the
try-block fail with the loop's error, remembering the job id. -/
theorem runFromCreate_pollError (p : SonioxLoaderParams)
    (opts : Option SonioxLoaderOptions) (env : TryEnv) (fuel : Nat)
    (fileId : Option String) (prior : List ApiCall)
    (ctr : SonioxCreateTranscriptionResponse) (cc : Nat) (tc : String)
    (e : SonioxError) (c2 : List ApiCall)
    (hCr : env.createResult (mkBody opts p.audio fileId) = .response true cc tc (.ok ctr))
    (hPoll : pollLoop env (p.pollingTimeoutMs.getD POLLING_TIMEOUT_MS) ctr.id fuel 0 =
      some (.error e, c2)) :
    runFromCreate p opts env fuel fileId prior =
      some ⟨.error e, fileId, some ctr.id,
        prior ++ [.createTranscription (mkBody opts p.audio fileId)] ++ c2⟩ := by
  unfold runFromCreate createTranscription
  simp [handleResponse, hCr, hPoll]

/-- A successful job creation, a loop that exits normally and a
successful transcript fetch make the try-block return the transcript. -/
theorem runFromCreate_happy (p : SonioxLoaderParams)
    (opts : Option SonioxLoaderOptions) (env : TryEnv) (fuel : Nat)
    (fileId : Option String) (prior : List ApiCall)
    (ctr : SonioxCreateTranscriptionResponse) (cc : Nat) (tc : String)
    (c2 : List ApiCall) (T : SonioxTranscriptResponse) (cf : Nat) (tf : String)
    (hCr : env.createResult (mkBody opts p.audio fileId) = .response true cc tc (.ok ctr))
    (hPoll : pollLoop env (p.pollingTimeoutMs.getD POLLING_TIMEOUT_MS) ctr.id fuel 0 =
      some (.ok (), c2))
    (hFetch : env.transcriptResult = .response true cf tf (.ok T)) :
    runFromCreate p opts env fuel fileId prior =
      some ⟨.ok T, fileId, some ctr.id,
        prior ++ [.createTranscription (mkBody opts p.audio fileId)] ++ c2 ++
          [.getTranscript ctr.id]⟩ := by
  unfold runFromCreate createTranscription getTranscriptionTranscript
  simp [handleResponse, hCr, hPoll, hFetch]

/-- **C1 counterexample.** The claim "whenever a file id was obtained
and job creation fails, a DELETE of the uploaded file is attempted"
fails at the empty-string file id: the finally-block's JS truthiness
guard `if (fileId)` (line 442) treats `""` as falsy, so after an upload
parsing to id `""` and a 500 on job creation, `transcribe` fails with
the creation error but issues no file deletion at all. -/
theorem C1_counterexample :
    ∃ res, transcribe paramsBytes none envEmptyIdCreateFail 1 = some res ∧
      (∃ msg sc cause, res.outcome = .error (.apiError msg sc cause) ∧
        strContains msg "Transcription creation failed") ∧
      ∀ f, ApiCall.deleteFile f ∉ res.calls := by
  refine ⟨⟨.error (.apiError "Transcription creation failed" (some 500)
      (some "Internal Server Error")),
    [ApiCall.uploadFile,
     ApiCall.createTranscription (mkBody none paramsBytes.audio (some ""))],
    []⟩, rfl, ⟨_, _, _, rfl, "", "", by simp⟩, ?_⟩
  intro f hf
  simp at hf

/-- **C1 amended.** If the upload succeeded with a truthy (non-empty)
file id and job creation returns a non-success HTTP status,
`transcribe` fails with an APIError whose message contains
"Transcription creation failed", and a DELETE of the uploaded file
appears in the request trace before the error is surfaced; an
empty-string id is falsy for the `if (fileId)` guard and skips the
deletion. -/
theorem C1_create_failure_deletes_uploaded_file
    (p : SonioxLoaderParams) (opts : Option SonioxLoaderOptions) (env : Env)
    (fuel : Nat) (bs : List Nat) (fr : SonioxFileUploadResponse)
    (hA : p.audio = .bytes bs) (hbs : bs ≠ []) (hfr : fr.id ≠ "")
    (hUp : ∃ c t, env.api.uploadResult = .response true c t (.ok fr))
    (hCr : ∀ b, ∃ c t body', env.api.createResult b = .response false c t body') :
    ∃ res, transcribe p opts env fuel = some res ∧
      (∃ msg sc cause, res.outcome = .error (.apiError msg sc cause) ∧
        strContains msg "Transcription creation failed") ∧
      ApiCall.deleteFile fr.id ∈ res.calls := by
  obtain ⟨cu, tu, hUp⟩ := hUp
  obtain ⟨cc, tc, body', hCr'⟩ := hCr (mkBody opts p.audio (some fr.id))
  have h1 := runTry_bytes_ok p opts env.api fuel bs fr cu tu hA hbs hUp
  have h2 := runFromCreate_createFail p opts env.api fuel (some fr.id)
    [.uploadFile] cc tc body' hCr'
  have h3 := h1.trans h2
  refine ⟨_, transcribe_eq p opts env fuel _ h3,
    ⟨_, _, _, rfl, "", "", by simp⟩, ?_⟩
  simp [cleanup_calls_eq, hfr]

/-- **C1 witness.** The amended theorem at a concrete input: non-empty
buffer, upload succeeds with the truthy file id "file-1", job creation
returns 500. -/
theorem C1_witness :
    ∃ res, transcribe paramsBytes none envCreateFail 1 = some res ∧
      (∃ msg sc cause, res.outcome = .error (.apiError msg sc cause) ∧
        strContains msg "Transcription creation failed") ∧
      ApiCall.deleteFile (SonioxFileUploadResponse.mk "file-1").id ∈ res.calls :=
  C1_create_failure_deletes_uploaded_file paramsBytes none envCreateFail 1
    bytesFixture ⟨"file-1"⟩ rfl (by decide) (by decide) ⟨200, "OK", rfl⟩
    (fun b => ⟨500, "Internal Server Error", .ok ⟨"x"⟩, rfl⟩)

/-- **C3 counterexample.** The claim "on polling timeout the job
deletion is attempted" fails at the empty-string job id: the
finally-block's JS truthiness guard `if (transcriptionId)` (line 452)
treats `""` as falsy, so after a create response parsing to id `""`
and a timeout, `transcribe` fails with the timeout error but issues no
job deletion at all. -/
theorem C3_counterexample :
    ∃ res, transcribe paramsUrl none envEmptyJobTimeout 1 = some res ∧
      res.outcome = .error (.timeoutError "Transcription job polling timed out") ∧
      ∀ j, ApiCall.deleteTranscription j ∉ res.calls := by
  refine ⟨⟨.error (.timeoutError "Transcription job polling timed out"),
    [ApiCall.createTranscription (mkBody none paramsUrl.audio none)], []⟩,
    rfl, rfl, ?_⟩
  intro j hj
  simp at hj

/-- **C3 amended.** If job creation succeeded with a truthy (non-empty)
job id, every poll returns a non-terminal status, and the clock leaves
the configured budget within the available fuel, `transcribe` fails
with `TimeoutError("Transcription job polling timed out")`, the job
deletion appears in the trace, and — when audio was a byte buffer, so a
file was uploaded, with a truthy file id — the file deletion appears in
the trace as well; empty-string ids are falsy for the `if (fileId)` /
`if (transcriptionId)` guards and skip their deletion. -/
theorem C3_timeout_attempts_both_deletions
    (p : SonioxLoaderParams) (opts : Option SonioxLoaderOptions) (env : Env)
    (fuel : Nat) (fr : SonioxFileUploadResponse)
    (ctr : SonioxCreateTranscriptionResponse) (hctr : ctr.id ≠ "")
    (hUp : ∀ bs, p.audio = .bytes bs → bs ≠ [] ∧ fr.id ≠ "" ∧
      ∃ c t, env.api.uploadResult = .response true c t (.ok fr))
    (hCr : ∀ b, ∃ c t, env.api.createResult b = .response true c t (.ok ctr))
    (hSt : ∀ i, ∃ c t st, env.api.statusResult i = .response true c t (.ok st) ∧
      st.status ≠ "completed" ∧ st.status ≠ "error")
    (hTime : ∃ d, d < fuel ∧ env.api.checkTime d - env.api.startTime >
      p.pollingTimeoutMs.getD POLLING_TIMEOUT_MS) :
    ∃ res, transcribe p opts env fuel = some res ∧
      res.outcome = .error (.timeoutError "Transcription job polling timed out") ∧
      ApiCall.deleteTranscription ctr.id ∈ res.calls ∧
      (∀ bs, p.audio = .bytes bs → ApiCall.deleteFile fr.id ∈ res.calls) := by
  have hTime0 : ∃ d, d < fuel ∧ env.api.checkTime (0 + d) - env.api.startTime >
      p.pollingTimeoutMs.getD POLLING_TIMEOUT_MS := by simpa using hTime
  obtain ⟨c2, hPoll⟩ := pollLoop_timeout env.api
    (p.pollingTimeoutMs.getD POLLING_TIMEOUT_MS) ctr.id hSt fuel 0 hTime0
  cases hA : p.audio with
  | url u =>
    obtain ⟨cc, tc, hCr'⟩ := hCr (mkBody opts p.audio none)
    have h1 := runTry_url p opts env.api fuel u hA
    have h2 := runFromCreate_pollError p opts env.api fuel none [] ctr cc tc _ c2
      hCr' hPoll
    have h3 := h1.trans h2
    refine ⟨_, transcribe_eq p opts env fuel _ h3, rfl, ?_, ?_⟩
    · simp [cleanup_calls_eq, hctr]
    · intro bs hbs
      simp [hA] at hbs
  | bytes bs =>
    obtain ⟨hbs, hfr, cu, tu, hUp'⟩ := hUp bs hA
    obtain ⟨cc, tc, hCr'⟩ := hCr (mkBody opts p.audio (some fr.id))
    have h1 := runTry_bytes_ok p opts env.api fuel bs fr cu tu hA hbs hUp'
    have h2 := runFromCreate_pollError p opts env.api fuel (some fr.id)
      [.uploadFile] ctr cc tc _ c2 hCr' hPoll
    have h3 := h1.trans h2
    refine ⟨_, transcribe_eq p opts env fuel _ h3, rfl, ?_, fun _ _ => ?_⟩
    · simp [cleanup_calls_eq, hctr, hfr]
    · simp [cleanup_calls_eq, hctr, hfr]

/-- **C3 witness.** The amended theorem at a concrete input:
byte-buffer audio, truthy ids, polls forever "queued", clock already
past the default budget. -/
theorem C3_witness :
    ∃ res, transcribe paramsBytes none envTimeout 1 = some res ∧
      res.outcome = .error (.timeoutError "Transcription job polling timed out") ∧
      ApiCall.deleteTranscription (SonioxCreateTranscriptionResponse.mk "job-1").id
        ∈ res.calls ∧
      (∀ bs, paramsBytes.audio = .bytes bs →
        ApiCall.deleteFile (SonioxFileUploadResponse.mk "file-1").id ∈ res.calls) :=
  C3_timeout_attempts_both_deletions paramsBytes none envTimeout 1 ⟨"file-1"⟩ ⟨"job-1"⟩
    (by decide)
    (fun bs h => by
      have h' : bytesFixture = bs := SonioxAudio.bytes.inj h
      exact ⟨h' ▸ (by decide : bytesFixture ≠ []), by decide, 200, "OK", rfl⟩)
    (fun b => ⟨200, "OK", rfl⟩)
    (fun i => ⟨200, "OK", statusQueued, rfl, by decide, by decide⟩)
    ⟨0, by norm_num, by norm_num [envTimeout, tryEnvHappy, paramsBytes, POLLING_TIMEOUT_MS]⟩

/-- **C8.** If the k-th poll (after k non-terminal polls, all inside
the budget) returns status "error", `transcribe` fails with
`APIError("Transcription failed: <server message or Unknown error>")`:
when the response carries an `error_message` the failure message
contains it, and when it carries none the failure message contains
"Unknown error". -/
theorem C8_poll_error_uses_server_message
    (p : SonioxLoaderParams) (opts : Option SonioxLoaderOptions) (env : Env)
    (fuel : Nat) (fr : SonioxFileUploadResponse)
    (ctr : SonioxCreateTranscriptionResponse) (k : Nat) (em : Option String)
    (hUp : ∀ bs, p.audio = .bytes bs → bs ≠ [] ∧
      ∃ c t, env.api.uploadResult = .response true c t (.ok fr))
    (hCr : ∀ b, ∃ c t, env.api.createResult b = .response true c t (.ok ctr))
    (hBefore : ∀ j, j < k →
      env.api.checkTime j - env.api.startTime ≤
        p.pollingTimeoutMs.getD POLLING_TIMEOUT_MS ∧
      ∃ c t st, env.api.statusResult j = .response true c t (.ok st) ∧
        st.status ≠ "completed" ∧ st.status ≠ "error")
    (hK : env.api.checkTime k - env.api.startTime ≤
      p.pollingTimeoutMs.getD POLLING_TIMEOUT_MS)
    (hErr : ∃ c t st, env.api.statusResult k = .response true c t (.ok st) ∧
      st.status = "error" ∧ st.error_message = em)
    (hFuel : k < fuel) :
    ∃ res, transcribe p opts env fuel = some res ∧
      res.outcome = .error (.apiError
        ("Transcription failed: " ++ em.getD "Unknown error") none none) ∧
      (∀ m, em = some m →
        strContains ("Transcription failed: " ++ em.getD "Unknown error") m) ∧
      (em = none →
        strContains ("Transcription failed: " ++ em.getD "Unknown error")
          "Unknown error") := by
  obtain ⟨c2, hPoll⟩ := pollLoop_error env.api
    (p.pollingTimeoutMs.getD POLLING_TIMEOUT_MS) ctr.id k fuel 0 hFuel
    (fun j hj => by simpa using hBefore j hj) (by simpa using hK) em
    (by simpa using hErr)
  have hContains :
      (∀ m, em = some m →
        strContains ("Transcription failed: " ++ em.getD "Unknown error") m) ∧
      (em = none →
        strContains ("Transcription failed: " ++ em.getD "Unknown error")
          "Unknown error") := by
    constructor
    · rintro m rfl
      exact ⟨"Transcription failed: ", "", by simp⟩
    · rintro rfl
      exact ⟨"Transcription failed: ", "", by simp⟩
  cases hA : p.audio with
  | url u =>
    obtain ⟨cc, tc, hCr'⟩ := hCr (mkBody opts p.audio none)
    have h1 := runTry_url p opts env.api fuel u hA
    have h2 := runFromCreate_pollError p opts env.api fuel none [] ctr cc tc _ c2
      hCr' hPoll
    exact ⟨_, transcribe_eq p opts env fuel _ (h1.trans h2), rfl,
      hContains.1, hContains.2⟩
  | bytes bs =>
    obtain ⟨hbs, cu, tu, hUp'⟩ := hUp bs hA
    obtain ⟨cc, tc, hCr'⟩ := hCr (mkBody opts p.audio (some fr.id))
    have h1 := runTry_bytes_ok p opts env.api fuel bs fr cu tu hA hbs hUp'
    have h2 := runFromCreate_pollError p opts env.api fuel (some fr.id)
      [.uploadFile] ctr cc tc _ c2 hCr' hPoll
    exact ⟨_, transcribe_eq p opts env fuel _ (h1.trans h2), rfl,
      hContains.1, hContains.2⟩

/-- **C8 witness.** The theorem at a concrete input: URL audio, first
poll reports status "error" with server message "boom". -/
theorem C8_witness :
    ∃ res, transcribe paramsUrl none envPollError 1 = some res ∧
      res.outcome = .error (.apiError
        ("Transcription failed: " ++ (some "boom").getD "Unknown error") none none) ∧
      (∀ m, (some "boom" : Option String) = some m →
        strContains ("Transcription failed: " ++ (some "boom").getD "Unknown error") m) ∧
      ((some "boom" : Option String) = none →
        strContains ("Transcription failed: " ++ (some "boom").getD "Unknown error")
          "Unknown error") :=
  C8_poll_error_uses_server_message paramsUrl none envPollError 1 ⟨"file-1"⟩ ⟨"job-1"⟩
    0 (some "boom")
    (fun bs h => by simp [paramsUrl] at h)
    (fun b => ⟨200, "OK", rfl⟩)
    (fun j hj => absurd hj (by omega))
    (by norm_num [envPollError, tryEnvHappy, paramsUrl, POLLING_TIMEOUT_MS])
    ⟨200, "OK", statusErrored, rfl, rfl, rfl⟩
    (by norm_num)

/-- **C4.** For every non-empty byte buffer and a configuration that
passed construction (valid credential), if upload, job creation, the
first poll (reporting "completed" inside the budget) and the transcript
fetch all succeed, then `load` resolves with exactly one document whose
page content is the transcript's `text` field and whose metadata is the
full transcript object. -/
theorem C4_happy_path_yields_one_document
    (ek : Option String) (p0 : SonioxLoaderParams)
    (opts0 : Option SonioxLoaderOptions) (cfg : ResolvedConfig) (env : Env)
    (fuel : Nat) (bs : List Nat) (fr : SonioxFileUploadResponse)
    (ctr : SonioxCreateTranscriptionResponse)
    (st : SonioxTranscriptionStatusResponse) (T : SonioxTranscriptResponse)
    (_hval : construct ek (some p0) opts0 = .ok cfg)
    (hA : cfg.params.audio = .bytes bs) (hbs : bs ≠ [])
    (hUp : ∃ c t, env.api.uploadResult = .response true c t (.ok fr))
    (hCr : ∀ b, ∃ c t, env.api.createResult b = .response true c t (.ok ctr))
    (hSt : ∃ c t, env.api.statusResult 0 = .response true c t (.ok st))
    (hCompleted : st.status = "completed")
    (hTime : env.api.checkTime 0 - env.api.startTime ≤
      cfg.params.pollingTimeoutMs.getD POLLING_TIMEOUT_MS)
    (hTr : ∃ c t, env.api.transcriptResult = .response true c t (.ok T))
    (hFuel : 0 < fuel) :
    ∃ calls warns, load cfg.params cfg.options env fuel =
      some (.ok [⟨T.text, T⟩], calls, warns) := by
  obtain ⟨cu, tu, hUp⟩ := hUp
  obtain ⟨cc, tc, hCr'⟩ := hCr (mkBody cfg.options cfg.params.audio (some fr.id))
  obtain ⟨cs, ts, hSt⟩ := hSt
  obtain ⟨cf, tf, hTr⟩ := hTr
  obtain ⟨c2, hPoll⟩ := pollLoop_completed env.api
    (cfg.params.pollingTimeoutMs.getD POLLING_TIMEOUT_MS) ctr.id 0 fuel 0 hFuel
    (fun j hj => absurd hj (by omega)) (by simpa using hTime)
    ⟨cs, ts, st, by simpa using hSt, hCompleted⟩
  have h1 := runTry_bytes_ok cfg.params cfg.options env.api fuel bs fr cu tu hA hbs hUp
  have h2 := runFromCreate_happy cfg.params cfg.options env.api fuel (some fr.id)
    [.uploadFile] ctr cc tc c2 T cf tf hCr' hPoll hTr
  have h4 := transcribe_eq cfg.params cfg.options env fuel _ (h1.trans h2)
  have hload : load cfg.params cfg.options env fuel =
      some (.ok [⟨T.text, T⟩],
        ([ApiCall.uploadFile] ++
          [ApiCall.createTranscription
            (mkBody cfg.options cfg.params.audio (some fr.id))] ++ c2 ++
          [ApiCall.getTranscript ctr.id]) ++
          (cleanup env (some fr.id) (some ctr.id)).1,
        (cleanup env (some fr.id) (some ctr.id)).2) := by
    unfold load
    rw [h4]
    rfl
  exact ⟨_, _, hload⟩

/-- **C4 witness.** The theorem at a concrete input: the happy-path
environment with transcript text "hello". -/
theorem C4_witness :
    ∃ calls warns,
      load (ResolvedConfig.mk { paramsBytes with apiBaseUrl := some API_BASE_URL }
              none).params
           (ResolvedConfig.mk { paramsBytes with apiBaseUrl := some API_BASE_URL }
              none).options
           envHappy 1 =
        some (.ok [⟨transcriptFixture.text, transcriptFixture⟩], calls, warns) :=
  C4_happy_path_yields_one_document none paramsBytes none
    (ResolvedConfig.mk { paramsBytes with apiBaseUrl := some API_BASE_URL } none)
    envHappy 1 bytesFixture ⟨"file-1"⟩ ⟨"job-1"⟩ statusCompleted transcriptFixture
    rfl rfl (by decide) ⟨200, "OK", rfl⟩ (fun b => ⟨200, "OK", rfl⟩)
    ⟨200, "OK", rfl⟩ rfl (by decide) ⟨200, "OK", rfl⟩ (by norm_num)

/-- **C10.** If the fetched transcript's `text` field is null/absent,
`load` still resolves with a one-element document sequence whose page
content is that null value (the `as string` cast does nothing at
runtime); no error is raised for the missing text field. -/
theorem C10_null_text_still_loads
    (p : SonioxLoaderParams) (opts : Option SonioxLoaderOptions) (env : Env)
    (fuel : Nat) (u : String) (ctr : SonioxCreateTranscriptionResponse)
    (st : SonioxTranscriptionStatusResponse) (T : SonioxTranscriptResponse)
    (hA : p.audio = .url u)
    (hCr : ∀ b, ∃ c t, env.api.createResult b = .response true c t (.ok ctr))
    (hSt : ∃ c t, env.api.statusResult 0 = .response true c t (.ok st))
    (hCompleted : st.status = "completed")
    (hTime : env.api.checkTime 0 - env.api.startTime ≤
      p.pollingTimeoutMs.getD POLLING_TIMEOUT_MS)
    (hTr : ∃ c t, env.api.transcriptResult = .response true c t (.ok T))
    (hText : T.text = none)
    (hFuel : 0 < fuel) :
    ∃ calls warns, load p opts env fuel =
      some (.ok [⟨none, T⟩], calls, warns) := by
  obtain ⟨cc, tc, hCr'⟩ := hCr (mkBody opts p.audio none)
  obtain ⟨cs, ts, hSt⟩ := hSt
  obtain ⟨cf, tf, hTr⟩ := hTr
  obtain ⟨c2, hPoll⟩ := pollLoop_completed env.api
    (p.pollingTimeoutMs.getD POLLING_TIMEOUT_MS) ctr.id 0 fuel 0 hFuel
    (fun j hj => absurd hj (by omega)) (by simpa using hTime)
    ⟨cs, ts, st, by simpa using hSt, hCompleted⟩
  have h1 := runTry_url p opts env.api fuel u hA
  have h2 := runFromCreate_happy p opts env.api fuel none [] ctr cc tc c2 T cf tf
    hCr' hPoll hTr
  have h4 := transcribe_eq p opts env fuel _ (h1.trans h2)
  have hload : load p opts env fuel =
      some (.ok [⟨T.text, T⟩],
        (([] : List ApiCall) ++
          [ApiCall.createTranscription (mkBody opts p.audio none)] ++ c2 ++
          [ApiCall.getTranscript ctr.id]) ++
          (cleanup env none (some ctr.id)).1,
        (cleanup env none (some ctr.id)).2) := by
    unfold load
    rw [h4]
    rfl
  rw [hText] at hload
  exact ⟨_, _, hload⟩

/-- **C10 witness.** The theorem at a concrete input: happy path whose
transcript has `text = none`. -/
theorem C10_witness :
    ∃ calls warns, load paramsUrl none envNoText 1 =
      some (.ok [⟨none, transcriptNoText⟩], calls, warns) :=
  C10_null_text_still_loads paramsUrl none envNoText 1 "https://example.com/a.mp3"
    ⟨"job-1"⟩ statusCompleted transcriptNoText rfl (fun b => ⟨200, "OK", rfl⟩)
    ⟨200, "OK", rfl⟩ rfl (by decide) ⟨200, "OK", rfl⟩ rfl (by norm_num)

/-- The try-block keeps the file id it was given. -/
theorem runFromCreate_fileId (p : SonioxLoaderParams)
    (opts : Option SonioxLoaderOptions) (env : TryEnv) (fuel : Nat)
    (fileId : Option String) (prior : List ApiCall) (t : TryOut)
    (h : runFromCreate p opts env fuel fileId prior = some t) :
    t.fileId = fileId := by
  unfold runFromCreate at h
  dsimp only at h
  split at h
  · cases Option.some.inj h; rfl
  · split at h
    · exact absurd h (by simp)
    · cases Option.some.inj h; rfl
    · split at h
      · cases Option.some.inj h; rfl
      · cases Option.some.inj h; rfl

/-- Requests issued before the job-creation stage stay in the trace. -/
theorem runFromCreate_prior_subset (p : SonioxLoaderParams)
    (opts : Option SonioxLoaderOptions) (env : TryEnv) (fuel : Nat)
    (fileId : Option String) (prior : List ApiCall) (t : TryOut)
    (h : runFromCreate p opts env fuel fileId prior = some t) :
    ∀ x ∈ prior, x ∈ t.calls := by
  unfold runFromCreate at h
  dsimp only at h
  split at h
  · cases Option.some.inj h
    intro x hx
    exact List.mem_append_left _ hx
  · split at h
    · exact absurd h (by simp)
    · cases Option.some.inj h
      intro x hx
      exact List.mem_append_left _ (List.mem_append_left _ hx)
    · split at h
      · cases Option.some.inj h
        intro x hx
        exact List.mem_append_left _ (List.mem_append_left _ (List.mem_append_left _ hx))
      · cases Option.some.inj h
        intro x hx
        exact List.mem_append_left _ (List.mem_append_left _ (List.mem_append_left _ hx))

/-- Classification of the requests issued from the job-creation stage
on: anything in the trace is either inherited from `prior`, the one
job-creation POST (whose body is `mkBody` of the given file id), a
status query, or a transcript fetch. -/
theorem runFromCreate_calls (p : SonioxLoaderParams)
    (opts : Option SonioxLoaderOptions) (env : TryEnv) (fuel : Nat)
    (fileId : Option String) (prior : List ApiCall) (t : TryOut)
    (h : runFromCreate p opts env fuel fileId prior = some t) :
    ∀ x ∈ t.calls, x ∈ prior ∨
      x = ApiCall.createTranscription (mkBody opts p.audio fileId) ∨
      (∃ j, x = ApiCall.getTranscription j) ∨
      (∃ j, x = ApiCall.getTranscript j) := by
  unfold runFromCreate at h
  dsimp only at h
  split at h
  next e c heq =>
    obtain ⟨-, rfl⟩ :
        handleResponse "Transcription creation failed: network error"
          "Transcription creation failed"
          (env.createResult (mkBody opts p.audio fileId)) = .error e ∧
        [ApiCall.createTranscription (mkBody opts p.audio fileId)] = c := by
      simpa [createTranscription] using heq
    cases Option.some.inj h
    intro x hx
    simp [List.mem_append] at hx
    rcases hx with hx | hx
    · exact Or.inl hx
    · exact Or.inr (Or.inl hx)
  next ctr c heq =>
    obtain ⟨-, rfl⟩ :
        handleResponse "Transcription creation failed: network error"
          "Transcription creation failed"
          (env.createResult (mkBody opts p.audio fileId)) = .ok ctr ∧
        [ApiCall.createTranscription (mkBody opts p.audio fileId)] = c := by
      simpa [createTranscription] using heq
    split at h
    · exact absurd h (by simp)
    next e c2 heq2 =>
      cases Option.some.inj h
      intro x hx
      simp [List.mem_append] at hx
      rcases hx with hx | hx | hx
      · exact Or.inl hx
      · exact Or.inr (Or.inl hx)
      · exact Or.inr (Or.inr (Or.inl
          ⟨ctr.id, pollLoop_calls env _ ctr.id fuel 0 _ c2 heq2 x hx⟩))
    next r c2 heq2 =>
      split at h
      next e c3 heq3 =>
        obtain ⟨-, rfl⟩ :
            handleResponse "Transcription transcript query failed: network error"
              "Transcription transcript query failed" env.transcriptResult =
                .error e ∧ [ApiCall.getTranscript ctr.id] = c3 := by
          simpa [getTranscriptionTranscript] using heq3
        cases Option.some.inj h
        intro x hx
        simp [List.mem_append] at hx
        rcases hx with hx | hx | hx | hx
        · exact Or.inl hx
        · exact Or.inr (Or.inl hx)
        · exact Or.inr (Or.inr (Or.inl
            ⟨ctr.id, pollLoop_calls env _ ctr.id fuel 0 _ c2 heq2 x hx⟩))
        · exact Or.inr (Or.inr (Or.inr ⟨ctr.id, hx⟩))
      next T c3 heq3 =>
        obtain ⟨-, rfl⟩ :
            handleResponse "Transcription transcript query failed: network error"
              "Transcription transcript query failed" env.transcriptResult =
                .ok T ∧ [ApiCall.getTranscript ctr.id] = c3 := by
          simpa [getTranscriptionTranscript] using heq3
        cases Option.some.inj h
        intro x hx
        simp [List.mem_append] at hx
        rcases hx with hx | hx | hx | hx
        · exact Or.inl hx
        · exact Or.inr (Or.inl hx)
        · exact Or.inr (Or.inr (Or.inl
            ⟨ctr.id, pollLoop_calls env _ ctr.id fuel 0 _ c2 heq2 x hx⟩))
        · exact Or.inr (Or.inr (Or.inr ⟨ctr.id, hx⟩))

/-- In URL mode no upload request is ever issued and no file id is
recorded. -/
theorem runTry_url_no_upload (p : SonioxLoaderParams)
    (opts : Option SonioxLoaderOptions) (env : TryEnv) (fuel : Nat)
    (u : String) (t : TryOut)
    (hA : p.audio = .url u) (h : runTry p opts env fuel = some t) :
    ApiCall.uploadFile ∉ t.calls ∧ t.fileId = none := by
  rw [runTry_url p opts env fuel u hA] at h
  refine ⟨?_, runFromCreate_fileId p opts env fuel none [] t h⟩
  intro hx
  rcases runFromCreate_calls p opts env fuel none [] t h _ hx with
    h1 | h1 | ⟨j, h1⟩ | ⟨j, h1⟩ <;> simp at h1

/-- In file mode, if a job-creation request appears in the trace then
the upload succeeded: its parsed file id is the recorded file id and
the upload request is in the trace; moreover the rest of the try-block
ran from that file id. -/
theorem runTry_bytes_create (p : SonioxLoaderParams)
    (opts : Option SonioxLoaderOptions) (env : TryEnv) (fuel : Nat)
    (bs : List Nat) (t : TryOut) (b : SonioxCreateTranscriptionRequest)
    (hA : p.audio = .bytes bs) (h : runTry p opts env fuel = some t)
    (hmem : ApiCall.createTranscription b ∈ t.calls) :
    ∃ fr, handleResponse "File upload failed: network error" "File upload failed"
        env.uploadResult = .ok fr ∧ t.fileId = some fr.id ∧
      ApiCall.uploadFile ∈ t.calls ∧
      runFromCreate p opts env fuel (some fr.id) [.uploadFile] = some t := by
  unfold runTry at h
  rw [hA] at h
  by_cases hlen : bs.length = 0
  · simp only [uploadFile, hlen, if_true, reduceIte] at h
    cases Option.some.inj h
    simp at hmem
  · cases hr : handleResponse "File upload failed: network error" "File upload failed"
        env.uploadResult with
    | error e =>
      simp only [uploadFile, hlen, reduceIte, hr] at h
      cases Option.some.inj h
      simp at hmem
    | ok fr =>
      simp only [uploadFile, hlen, reduceIte, hr] at h
      exact ⟨fr, rfl, runFromCreate_fileId p opts env fuel (some fr.id) [.uploadFile] t h,
        runFromCreate_prior_subset p opts env fuel (some fr.id) [.uploadFile] t h
          _ (by simp), h⟩

/-- **C6.** The audio-source mode is decided solely by the runtime type
of the audio value.  For any job-creation request observed in the
trace of a `transcribe` run: in URL mode its body carries the raw URL
as `audio_url`, no `file_id`, and no upload request ever appears; in
file mode its body carries the uploaded file's parsed id as `file_id`,
no `audio_url`, and the upload request appears in the trace.  In every
case exactly one of `file_id` / `audio_url` is set. -/
theorem C6_mode_decided_by_audio_type (p : SonioxLoaderParams)
    (opts : Option SonioxLoaderOptions) (env : Env) (fuel : Nat)
    (res : TranscribeResult) (b : SonioxCreateTranscriptionRequest)
    (hres : transcribe p opts env fuel = some res)
    (hmem : ApiCall.createTranscription b ∈ res.calls) :
    (∀ u, p.audio = .url u →
      b.audio_url = some u ∧ b.file_id = none ∧
      ApiCall.uploadFile ∉ res.calls) ∧
    (∀ bs, p.audio = .bytes bs →
      b.audio_url = none ∧ ApiCall.uploadFile ∈ res.calls ∧
      ∃ fr, handleResponse "File upload failed: network error" "File upload failed"
        env.api.uploadResult = .ok fr ∧ b.file_id = some fr.id) ∧
    b.audio_url.isSome = !b.file_id.isSome := by
  obtain ⟨t, hTry, hOut, hCalls⟩ := transcribe_some_elim p opts env fuel res hres
  have hclean := cleanup_calls_classify env t.fileId t.transcriptionId
  have hmem' : ApiCall.createTranscription b ∈ t.calls := by
    rw [hCalls] at hmem
    rcases List.mem_append.mp hmem with h | h
    · exact h
    · rcases hclean _ h with ⟨f, hf⟩ | ⟨f, hf⟩ <;> simp at hf
  have hmain :
      (∀ u, p.audio = .url u →
        b.audio_url = some u ∧ b.file_id = none ∧
        ApiCall.uploadFile ∉ res.calls) ∧
      (∀ bs, p.audio = .bytes bs →
        b.audio_url = none ∧ ApiCall.uploadFile ∈ res.calls ∧
        ∃ fr, handleResponse "File upload failed: network error" "File upload failed"
          env.api.uploadResult = .ok fr ∧ b.file_id = some fr.id) := by
    constructor
    · intro u hA
      obtain ⟨hnoup, hfid⟩ := runTry_url_no_upload p opts env.api fuel u t hA hTry
      have h' : runFromCreate p opts env.api fuel none [] = some t := by
        rw [← runTry_url p opts env.api fuel u hA]; exact hTry
      have hb : b = mkBody opts p.audio none := by
        rcases runFromCreate_calls p opts env.api fuel none [] t h' _ hmem' with
          h1 | h1 | ⟨j, h1⟩ | ⟨j, h1⟩
        · simp at h1
        · exact ApiCall.createTranscription.inj h1
        · simp at h1
        · simp at h1
      subst hb
      refine ⟨by simp [mkBody, hA], by simp [mkBody, hA], ?_⟩
      intro hx
      rw [hCalls] at hx
      rcases List.mem_append.mp hx with h | h
      · exact hnoup h
      · rcases hclean _ h with ⟨f, hf⟩ | ⟨f, hf⟩ <;> simp at hf
    · intro bs hA
      obtain ⟨fr, hup, hfid, hupmem, h'⟩ :=
        runTry_bytes_create p opts env.api fuel bs t b hA hTry hmem'
      have hb : b = mkBody opts p.audio (some fr.id) := by
        rcases runFromCreate_calls p opts env.api fuel (some fr.id) [.uploadFile] t
            h' _ hmem' with h1 | h1 | ⟨j, h1⟩ | ⟨j, h1⟩
        · simp at h1
        · exact ApiCall.createTranscription.inj h1
        · simp at h1
        · simp at h1
      subst hb
      refine ⟨by simp [mkBody, hA], ?_, fr, hup, by simp [mkBody, hA]⟩
      rw [hCalls]
      exact List.mem_append_left _ hupmem
  refine ⟨hmain.1, hmain.2, ?_⟩
  cases hA : p.audio with
  | bytes bs =>
    obtain ⟨h1, -, fr, -, h2⟩ := hmain.2 bs hA
    rw [h1, h2]
    rfl
  | url u =>
    obtain ⟨h1, h2, -⟩ := hmain.1 u hA
    rw [h1, h2]
    rfl

/-- **C6 witness.** The theorem at a concrete input: URL-mode happy
path, whose trace contains exactly one job-creation request. -/
theorem C6_witness :
    (∀ u, paramsUrl.audio = .url u →
      (mkBody none paramsUrl.audio none).audio_url = some u ∧
      (mkBody none paramsUrl.audio none).file_id = none ∧
      ApiCall.uploadFile ∉
        (TranscribeResult.mk (.ok transcriptFixture)
          [ApiCall.createTranscription (mkBody none paramsUrl.audio none),
           ApiCall.getTranscription "job-1", ApiCall.getTranscript "job-1",
           ApiCall.deleteTranscription "job-1"] []).calls) ∧
    (∀ bs, paramsUrl.audio = .bytes bs →
      (mkBody none paramsUrl.audio none).audio_url = none ∧
      ApiCall.uploadFile ∈
        (TranscribeResult.mk (.ok transcriptFixture)
          [ApiCall.createTranscription (mkBody none paramsUrl.audio none),
           ApiCall.getTranscription "job-1", ApiCall.getTranscript "job-1",
           ApiCall.deleteTranscription "job-1"] []).calls ∧
      ∃ fr, handleResponse "File upload failed: network error" "File upload failed"
        envHappy.api.uploadResult = .ok fr ∧
        (mkBody none paramsUrl.audio none).file_id = some fr.id) ∧
    (mkBody none paramsUrl.audio none).audio_url.isSome =
      !(mkBody none paramsUrl.audio none).file_id.isSome :=
  C6_mode_decided_by_audio_type paramsUrl none envHappy 1
    (TranscribeResult.mk (.ok transcriptFixture)
      [ApiCall.createTranscription (mkBody none paramsUrl.audio none),
       ApiCall.getTranscription "job-1", ApiCall.getTranscript "job-1",
       ApiCall.deleteTranscription "job-1"] [])
    (mkBody none paramsUrl.audio none) rfl (List.mem_cons_self _ _)
